import Mathlib

/-!
Verification of `github_knowledge_builder.py` (function
`generate_repo_knowledge_file`, the single-repository aggregation routine).

The filesystem a run sees is modelled as a tree of directories and files.
A file carries the outcome of the two I/O operations the source performs on
it: `os.path.getsize` (line 101; `none` models an `OSError`) and
`open(...).read()` with `errors='ignore'` (line 123; `none` models any
exception raised while reading or decoding).  Paths use the POSIX
separator `/`.  All container types of the Python source (`list`, `str`)
are modelled by `List` and `String`; comparisons with `in` are exact
string equality, as in Python.
-/

set_option maxRecDepth 20000
set_option linter.unusedVariables false

namespace KnowledgeBuilder

/-- One on-disk file: its base name, the result of `os.path.getsize`
(`none` = `OSError`, lines 100-109 of the source), and the result of
reading it as text with `errors='ignore'` (`none` = exception,
lines 122-157). -/
structure FSFile where
  name : String
  statResult : Option Nat
  readResult : Option String
deriving Repr, DecidableEq

/-- A directory: its base name, its files and its subdirectories, in the
order the directory listing yields them (the order `os.walk` presents). -/
inductive FSDir where
  | mk (name : String) (files : List FSFile) (subdirs : List FSDir)
deriving Repr

def FSDir.name : FSDir → String
  | .mk n _ _ => n

def FSDir.files : FSDir → List FSFile
  | .mk _ fs _ => fs

def FSDir.subdirs : FSDir → List FSDir
  | .mk _ _ ds => ds

/-- `os.path.splitext` restricted to base names (no path separator), as in
CPython's `genericpath._splitext`: the extension starts at the last `.`,
provided some character strictly before that dot is not a dot (leading
dots of a hidden file never start an extension). -/
def splitext (name : String) : String × String :=
  let rcs := name.data.reverse
  let extRev := rcs.takeWhile (fun c => c != '.')
  match rcs.dropWhile (fun c => c != '.') with
  | [] => (name, "")
  | _ :: baseRev =>
    if baseRev.any (fun c => c != '.') then
      (String.mk baseRev.reverse, String.mk ('.' :: extRev.reverse))
    else (name, "")

/-- Python's `str.lower()` on the ASCII strings the classifier handles
(`Char.toLower` lower-cases exactly the ASCII range). -/
def pyLower (s : String) : String :=
  String.mk (s.data.map Char.toLower)

/-- Line 85 of the source: `os.path.splitext(file_name)[1].lower()`. -/
def pyFileExt (name : String) : String :=
  pyLower (splitext name).2

/-- Default `include_extensions` (source lines 35-44). -/
def default_include_extensions : List String :=
  [".txt", ".md", ".markdown", ".rst",
   ".py", ".js", ".ts", ".jsx", ".tsx", ".json", ".yaml", ".yml",
   ".html", ".css", ".scss", ".less", ".xml", ".vue", ".svelte",
   ".java", ".c", ".cpp", ".h", ".hpp", ".go", ".rs", ".php", ".sh", ".bash",
   ".rb", ".pl", ".sql", ".csv", ".tsv", ".toml", ".ini", ".cfg", ".conf",
   ".dockerfile", ".Dockerfile",
   ".env", ".sample",
   ".log"]

/-- Default `exclude_dirs` (source lines 48-56). -/
def default_exclude_dirs : List String :=
  [".git", ".svn", ".hg",
   "node_modules", "bower_components", "vendor",
   "build", "dist", "out", "target", ".idea", ".vscode",
   "__pycache__", ".pytest_cache",
   "obj", "bin",
   "logs",
   "tmp", "temp"]

/-- Default `exclude_files` (source lines 60-66). -/
def default_exclude_files : List String :=
  ["package-lock.json", "yarn.lock", "pnpm-lock.yaml",
   "Pipfile.lock", "Gemfile.lock",
   ".DS_Store", "Thumbs.db",
   "npm-debug.log",
   "CVS"]

/-- The `code_extensions` list of source lines 129-132. -/
def code_extensions : List String :=
  [".py", ".js", ".ts", ".jsx", ".tsx", ".json", ".yaml", ".yml",
   ".html", ".css", ".scss", ".less", ".java", ".c", ".cpp", ".go", ".rs", ".php",
   ".sh", ".bash", ".rb", ".pl", ".sql", ".toml", ".ini", ".cfg", ".conf",
   ".dockerfile", ".Dockerfile"]

/-- Python's `str.lstrip('.')`: drop every leading dot (source line 136). -/
def lstripDots (s : String) : String :=
  String.mk (s.data.dropWhile (fun c => c = '.'))

/-- Source lines 136-140: the language tag used on the code fence,
`file_ext.lstrip('.')` with the `dockerfile` and `yml` special cases. -/
def pyLangTag (file_ext : String) : String :=
  let lang := lstripDots file_ext
  if lang = "dockerfile" then "dockerfile"
  else if lang = "yml" then "yaml" else lang

/-- Source lines 127-143: render one included file into its block.
`file_ext` is the already lower-cased extension computed at line 85. -/
def render (relative_path file_ext content : String) : String :=
  let file_header := "## File: " ++ relative_path ++ "\n\n"
  if code_extensions.contains file_ext then
    file_header ++ "```" ++ pyLangTag file_ext ++ "\n" ++ content ++ "\n```\n\n"
  else
    file_header ++ content ++ "\n\n"

/-- The resolved configuration of one run: the caller's limits and the
three policy lists after the `if ... is None` default substitution of
source lines 33-66.  `max_output_size_bytes` is precomputed at line 72;
the per-file limit is kept in KB because line 102 multiplies at the
comparison site. -/
structure Config where
  max_output_size_bytes : Nat
  max_file_size_kb : Nat
  include_extensions : List String
  exclude_dirs : List String
  exclude_files : List String
deriving Repr, DecidableEq

/-- Source lines 33-66 and 72: substitute the default lists for `None`
arguments and convert the output budget to bytes. -/
def resolveConfig (max_output_size_kb max_file_size_kb : Nat)
    (include_extensions exclude_dirs exclude_files : Option (List String)) : Config :=
  { max_output_size_bytes := max_output_size_kb * 1024
    max_file_size_kb := max_file_size_kb
    include_extensions := include_extensions.getD default_include_extensions
    exclude_dirs := exclude_dirs.getD default_exclude_dirs
    exclude_files := exclude_files.getD default_exclude_files }

/-- The mutable per-run variables of source lines 70-74. -/
structure TraversalState where
  processed_content : List String
  current_size_bytes : Nat
  included_count : Nat
  skipped_count : Nat
deriving Repr, DecidableEq

/-- Outcome of the body of the `for file_name in files` loop for one file:
`cont` = fall through to the next file; `halt` = one of the two budget
checks tripped, so the source cleared `dirs[:]` and executed `break`. -/
inductive FileStep where
  | cont (st : TraversalState)
  | halt (st : TraversalState)
deriving Repr, DecidableEq

def FileStep.state : FileStep → TraversalState
  | .cont st => st
  | .halt st => st

/-- Source lines 84-157: the body of the inner `for file_name in files`
loop, for one file whose path relative to the repository root is
`relative_path`. -/
def processFile (cfg : Config) (relative_path : String) (f : FSFile)
    (st : TraversalState) : FileStep :=
  -- line 90: `if file_name in exclude_files`
  if cfg.exclude_files.contains f.name then
    .cont { st with skipped_count := st.skipped_count + 1 }
  -- line 95: `if file_ext not in include_extensions`
  else if !(cfg.include_extensions.contains (pyFileExt f.name)) then
    .cont { st with skipped_count := st.skipped_count + 1 }
  else
    match f.statResult with
    -- lines 106-109: `except OSError`
    | none => .cont { st with skipped_count := st.skipped_count + 1 }
    | some file_size_bytes =>
      -- line 102: `if file_size_bytes > max_file_size_kb * 1024`
      if file_size_bytes > cfg.max_file_size_kb * 1024 then
        .cont { st with skipped_count := st.skipped_count + 1 }
      -- line 114: the budget pre-check
      else if st.current_size_bytes + file_size_bytes > cfg.max_output_size_bytes then
        .halt { st with skipped_count := st.skipped_count + 1 }
      else
        match f.readResult with
        -- lines 154-157: `except Exception`
        | none => .cont { st with skipped_count := st.skipped_count + 1 }
        | some content =>
          -- lines 127-146: render, append, recompute the exact size
          let block := render relative_path (pyFileExt f.name) content
          let processed := st.processed_content ++ [block]
          let cur := (String.join processed).utf8ByteSize
          let st' : TraversalState :=
            { processed_content := processed
              current_size_bytes := cur
              included_count := st.included_count + 1
              skipped_count := st.skipped_count }
          -- lines 148-152: the budget post-check
          if cur ≥ cfg.max_output_size_bytes then .halt st' else .cont st'

/-- The inner `for file_name in files` loop (source lines 84-157).  The
returned flag records whether a budget check cleared `dirs[:]` and broke
out of the loop. -/
def processFiles (cfg : Config) (pre : String) :
    List FSFile → TraversalState → TraversalState × Bool
  | [], st => (st, false)
  | f :: fs, st =>
    match processFile cfg (pre ++ f.name) f st with
    | .cont st' => processFiles cfg pre fs st'
    | .halt st' => (st', true)

mutual

/-- The body of the `for root, dirs, files in os.walk(...)` loop at one
directory, plus the descent `os.walk` performs afterwards.  `pre` is the
relative-path prefix of files in this directory.  The returned flag is
the outer `break` of source lines 159-160: once `current_size_bytes`
meets the budget, the whole walk stops.  When only the pre-check tripped
(`dirs` cleared but the running size still below the budget) the walk
does not descend below this directory but does continue with pending
sibling directories, exactly as clearing `dirs[:]` behaves under
`os.walk`. -/
def walkDir (cfg : Config) (pre : String) :
    FSDir → TraversalState → TraversalState × Bool
  | .mk _ fs subs, st =>
    let p := processFiles cfg pre fs st
    if p.1.current_size_bytes ≥ cfg.max_output_size_bytes then (p.1, true)
    else if p.2 then (p.1, false)
    else walkDirs cfg pre subs p.1

/-- Descent into the subdirectories of one directory.  The filter of
source line 82 (`dirs[:] = [d for d in dirs if d not in exclude_dirs]`)
is applied to each child before it is entered. -/
def walkDirs (cfg : Config) (pre : String) :
    List FSDir → TraversalState → TraversalState × Bool
  | [], st => (st, false)
  | d :: ds, st =>
    if cfg.exclude_dirs.contains d.name then walkDirs cfg pre ds st
    else
      let q := walkDir cfg (pre ++ d.name ++ "/") d st
      if q.2 then (q.1, true) else walkDirs cfg pre ds q.1

end

/-- Python's `f"{current_size_bytes/1024:.1f}"` (source line 170),
idealised to exact rational rounding: one decimal digit, ties to even. -/
def format1f (bytes : Nat) : String :=
  let num := bytes * 10
  let q := num / 1024
  let r := num % 1024
  let tenths :=
    if 1024 < r * 2 then q + 1
    else if r * 2 < 1024 then q
    else if q % 2 = 0 then q else q + 1
  toString (tenths / 10) ++ "." ++ toString (tenths % 10)

/-- The `repo_header` f-string of source lines 165-177, byte for byte
(the three `**...**` lines end with two trailing spaces). -/
def mkRepoHeader (repo_name : String) (included_count current_size_bytes : Nat) : String :=
  "# Repository: " ++ repo_name ++ "\n\n" ++
  "**Repository Type**: GitHub Code Repository  \n" ++
  "**Purpose**: Knowledge base for LLM training on " ++ repo_name ++ " codebase  \n" ++
  "**Files Included**: " ++ toString included_count ++ " files  \n" ++
  "**Total Size**: ~" ++ format1f current_size_bytes ++ " KB\n\n" ++
  "## Repository Overview\n" ++
  "This knowledge base contains code, documentation, and configuration files from the " ++
  repo_name ++ " repository to help understand its structure, patterns, and implementation details.\n\n" ++
  "---\n\n"

/-- Everything observable about one run of `generate_repo_knowledge_file`:
the final traversal state, the document written to
`{output_dir}/{repo_name}_knowledge.md` (`none` when `processed_content`
is empty and nothing is written, source lines 163 and 188-189), the path
of that file, the value the Python function returns to its caller, and
the final contents of the three policy-list objects. -/
structure RunResult where
  state : TraversalState
  written_content : Option String
  output_filename : String
  retVal : Option (Nat × Nat)
  final_include_extensions : List String
  final_exclude_dirs : List String
  final_exclude_files : List String
deriving Repr, DecidableEq

/-- `generate_repo_knowledge_file` (source lines 4-192).  `repo` is the
tree rooted at `repo_path`, whose base name is `repo.name`.  The function
body contains no `return` statement, so `retVal` is `none`; the three
policy lists are only read (membership tests at lines 82, 90, 95), never
written, so their final contents are the resolved lists themselves. -/
def generate_repo_knowledge_file (repo : FSDir) (output_dir : String)
    (max_output_size_kb max_file_size_kb : Nat)
    (include_extensions exclude_dirs exclude_files : Option (List String)) :
    RunResult :=
  let cfg := resolveConfig max_output_size_kb max_file_size_kb
    include_extensions exclude_dirs exclude_files
  let st0 : TraversalState :=
    { processed_content := [], current_size_bytes := 0
      included_count := 0, skipped_count := 0 }
  let st := (walkDir cfg "" repo st0).1
  let doc :=
    if st.processed_content.isEmpty then none
    else some (mkRepoHeader repo.name st.included_count st.current_size_bytes
               ++ String.join st.processed_content)
  { state := st
    written_content := doc
    output_filename := output_dir ++ "/" ++ repo.name ++ "_knowledge.md"
    retVal := none
    final_include_extensions := cfg.include_extensions
    final_exclude_dirs := cfg.exclude_dirs
    final_exclude_files := cfg.exclude_files }

mutual

/-- All files of a subtree paired with the relative path the walk would
compute for them (before any pruning). -/
def allFileMeta (pre : String) : FSDir → List (String × FSFile)
  | .mk _ fs subs =>
    fs.map (fun f => (pre ++ f.name, f)) ++ allFileMetaList pre subs

def allFileMetaList (pre : String) : List FSDir → List (String × FSFile)
  | [] => []
  | d :: ds => allFileMeta (pre ++ d.name ++ "/") d ++ allFileMetaList pre ds

end

/- ### Generic preservation of a state predicate along the walk -/

theorem FileStep_state_cont (st : TraversalState) : (FileStep.cont st).state = st := rfl

theorem processFiles_inv (cfg : Config) (P : TraversalState → Prop) (pre : String)
    (fs : List FSFile) (st : TraversalState)
    (hstep : ∀ f ∈ fs, ∀ s, P s → P (processFile cfg (pre ++ f.name) f s).state)
    (h : P st) : P (processFiles cfg pre fs st).1 := by
  induction fs generalizing st with
  | nil => simpa [processFiles] using h
  | cons f fs ih =>
    have hf : P (processFile cfg (pre ++ f.name) f st).state :=
      hstep f (by simp) st h
    rw [processFiles]
    cases hpf : processFile cfg (pre ++ f.name) f st with
    | cont st' =>
      rw [hpf] at hf
      exact ih st' (fun g hg s hs => hstep g (by simp [hg]) s hs) hf
    | halt st' =>
      rw [hpf] at hf
      simpa using hf

mutual

theorem walkDir_inv (cfg : Config) (P : TraversalState → Prop) (pre : String)
    (d : FSDir) (st : TraversalState)
    (hstep : ∀ q ∈ allFileMeta pre d, ∀ s, P s → P (processFile cfg q.1 q.2 s).state)
    (h : P st) : P (walkDir cfg pre d st).1 := by
  cases d with
  | mk n fs subs =>
    rw [walkDir]
    have hfiles : P (processFiles cfg pre fs st).1 := by
      refine processFiles_inv cfg P pre fs st (fun f hf s hs => ?_) h
      refine hstep (pre ++ f.name, f) ?_ s hs
      rw [allFileMeta]
      exact List.mem_append_left _ (List.mem_map_of_mem _ hf)
    have hsubs : ∀ q ∈ allFileMetaList pre subs, ∀ s, P s →
        P (processFile cfg q.1 q.2 s).state := by
      intro q hq s hs
      refine hstep q ?_ s hs
      rw [allFileMeta]
      exact List.mem_append_right _ hq
    split
    · exact hfiles
    · split
      · exact hfiles
      · exact walkDirs_inv cfg P pre subs (processFiles cfg pre fs st).1 hsubs hfiles

theorem walkDirs_inv (cfg : Config) (P : TraversalState → Prop) (pre : String)
    (ds : List FSDir) (st : TraversalState)
    (hstep : ∀ q ∈ allFileMetaList pre ds, ∀ s, P s → P (processFile cfg q.1 q.2 s).state)
    (h : P st) : P (walkDirs cfg pre ds st).1 := by
  cases ds with
  | nil => simpa [walkDirs] using h
  | cons d ds =>
    have hd : ∀ q ∈ allFileMeta (pre ++ d.name ++ "/") d, ∀ s, P s →
        P (processFile cfg q.1 q.2 s).state := by
      intro q hq s hs
      refine hstep q ?_ s hs
      rw [allFileMetaList]
      exact List.mem_append_left _ hq
    have hds : ∀ q ∈ allFileMetaList pre ds, ∀ s, P s →
        P (processFile cfg q.1 q.2 s).state := by
      intro q hq s hs
      refine hstep q ?_ s hs
      rw [allFileMetaList]
      exact List.mem_append_right _ hq
    rw [walkDirs]
    by_cases hc : cfg.exclude_dirs.contains d.name = true
    · simp only [hc, if_true]
      exact walkDirs_inv cfg P pre ds st hds h
    · simp only [hc, if_false, Bool.false_eq_true]
      have hw : P (walkDir cfg (pre ++ d.name ++ "/") d st).1 :=
        walkDir_inv cfg P (pre ++ d.name ++ "/") d st hd h
      cases hq : (walkDir cfg (pre ++ d.name ++ "/") d st).2 with
      | true => simpa [hq] using hw
      | false =>
        simp only [hq, Bool.false_eq_true, if_false]
        exact walkDirs_inv cfg P pre ds (walkDir cfg (pre ++ d.name ++ "/") d st).1 hds hw

end

/- ### Pruning of excluded directories (claim C4) -/

mutual

/-- Remove, below the root, every subdirectory whose base name is in
`ex`, together with its whole subtree.  The root's own name is not
examined, mirroring `os.walk(repo_path)` which always enters the top
directory. -/
def pruneEx (ex : List String) : FSDir → FSDir
  | .mk n fs subs => .mk n fs (pruneExList ex subs)

def pruneExList (ex : List String) : List FSDir → List FSDir
  | [] => []
  | d :: ds =>
    if ex.contains d.name then pruneExList ex ds
    else pruneEx ex d :: pruneExList ex ds

end

theorem pruneEx_name (ex : List String) (d : FSDir) : (pruneEx ex d).name = d.name := by
  cases d with
  | mk n fs subs => rw [pruneEx]; rfl

mutual

theorem walkDir_prune (cfg : Config) (pre : String) (d : FSDir) (st : TraversalState) :
    walkDir cfg pre (pruneEx cfg.exclude_dirs d) st = walkDir cfg pre d st := by
  cases d with
  | mk n fs subs =>
    rw [pruneEx, walkDir, walkDir, walkDirs_prune]

theorem walkDirs_prune (cfg : Config) (pre : String) (ds : List FSDir) (st : TraversalState) :
    walkDirs cfg pre (pruneExList cfg.exclude_dirs ds) st = walkDirs cfg pre ds st := by
  cases ds with
  | nil => rw [pruneExList]
  | cons d ds =>
    rw [pruneExList]
    cases hc : cfg.exclude_dirs.contains d.name with
    | true =>
      simp only [hc, if_true]
      rw [walkDirs_prune, walkDirs, hc]
      simp
    | false =>
      simp only [hc, Bool.false_eq_true, if_false]
      rw [walkDirs, walkDirs, pruneEx_name, hc]
      simp only [Bool.false_eq_true, if_false]
      rw [walkDir_prune]
      simp only [walkDirs_prune cfg pre ds]

end

/- ### Byte-length bookkeeping (claim C2) -/

theorem utf8_data (s : String) : s.utf8ByteSize = String.utf8Len s.data := rfl

theorem utf8_append (a b : String) :
    (a ++ b).utf8ByteSize = a.utf8ByteSize + b.utf8ByteSize := by
  rw [utf8_data, utf8_data, utf8_data, String.data_append, String.utf8Len_append]

theorem utf8_empty : String.utf8ByteSize "" = 0 := rfl

theorem join_snoc (xs : List String) (b : String) :
    String.join (xs ++ [b]) = String.join xs ++ b := by
  simp [String.join, List.foldl_append]

/-- Everything the renderer adds around a file's content: the byte length
of its block when the content is empty (the `## File:` header, the
trailing blank line, and the code fencing when present). -/
def blockOverhead (relative_path file_ext : String) : Nat :=
  (render relative_path file_ext "").utf8ByteSize

theorem render_utf8 (relative_path file_ext content : String) :
    (render relative_path file_ext content).utf8ByteSize
      = blockOverhead relative_path file_ext + content.utf8ByteSize := by
  unfold blockOverhead render
  cases hc : code_extensions.contains file_ext with
  | true =>
    simp only [hc, if_true]
    simp only [utf8_append, utf8_empty]
    omega
  | false =>
    simp only [hc, Bool.false_eq_true, if_false]
    simp only [utf8_append, utf8_empty]
    omega

theorem ite_halt_cont_state (p : Prop) [Decidable p] (st : TraversalState) :
    (if p then FileStep.halt st else FileStep.cont st).state = st := by
  split <;> rfl

/-- The two facts the walk maintains about its size accounting:
`current_size_bytes` is exactly the encoded length of the joined blocks
(source line 145 recomputes it that way), and it never exceeds the budget
by more than `B`, a bound on the rendering overhead of a single file. -/
def SizeInv (cfg : Config) (B : Nat) (st : TraversalState) : Prop :=
  st.current_size_bytes = (String.join st.processed_content).utf8ByteSize ∧
  st.current_size_bytes ≤ cfg.max_output_size_bytes + B

theorem processFile_size_step (cfg : Config) (B : Nat) (relative_path : String)
    (f : FSFile) (st : TraversalState)
    (hov : blockOverhead relative_path (pyFileExt f.name) ≤ B)
    (hsz : ∀ n c, f.statResult = some n → f.readResult = some c → c.utf8ByteSize ≤ n)
    (h : SizeInv cfg B st) :
    SizeInv cfg B (processFile cfg relative_path f st).state := by
  unfold processFile
  split
  · exact h
  · split
    · exact h
    · split
      · exact h
      · rename_i n hstat
        split
        · exact h
        · split
          · exact h
          · rename_i hsize hpre
            split
            · exact h
            · rename_i c hread
              have hc : c.utf8ByteSize ≤ n := hsz n c hstat hread
              have hcur : st.current_size_bytes + n ≤ cfg.max_output_size_bytes := by
                omega
              have hblock :
                  (String.join (st.processed_content
                      ++ [render relative_path (pyFileExt f.name) c])).utf8ByteSize
                    = (String.join st.processed_content).utf8ByteSize
                      + (blockOverhead relative_path (pyFileExt f.name) + c.utf8ByteSize) := by
                rw [join_snoc, utf8_append, render_utf8]
              have h1 := h.1
              constructor
              · simp only [ite_halt_cont_state]
              · simp only [ite_halt_cont_state]
                omega

/- ### Remaining helper definitions and lemmas -/

theorem le_foldr_max {l : List Nat} {a : Nat} (h : a ∈ l) : a ≤ l.foldr max 0 := by
  induction l with
  | nil => cases h
  | cons b t ih =>
    rcases List.mem_cons.mp h with rfl | h'
    · exact Nat.le_max_left _ _
    · exact Nat.le_trans (ih h') (Nat.le_max_right _ _)

/-- The per-file rendering overheads of every file of the tree. -/
def overheadListOf (repo : FSDir) : List Nat :=
  (allFileMeta "" repo).map (fun q => blockOverhead q.1 (pyFileExt q.2.name))

/-- The largest header-plus-fencing overhead any single file of the tree
can add to the output. -/
def treeOverheadBound (repo : FSDir) : Nat :=
  (overheadListOf repo).foldr max 0

theorem processFile_count_step (cfg : Config) (relative_path : String)
    (f : FSFile) (s : TraversalState)
    (hs : s.included_count = s.processed_content.length) :
    (processFile cfg relative_path f s).state.included_count
      = (processFile cfg relative_path f s).state.processed_content.length := by
  unfold processFile
  split
  · exact hs
  · split
    · exact hs
    · split
      · exact hs
      · split
        · exact hs
        · split
          · exact hs
          · split
            · exact hs
            · simp only [ite_halt_cont_state]
              simp [hs]

theorem contains_empty_eq_false (l : List String) (h : ∀ e ∈ l, e ≠ "") :
    l.contains "" = false := by
  cases hc : l.contains "" with
  | false => rfl
  | true => exact absurd rfl (h "" (List.mem_of_elem_eq_true hc))

/-- The configuration of a run invoked with all-default policy arguments
(`max_output_size_kb = 500`, `max_file_size_kb = 50`, the three lists
`None`). -/
def defaultConfig : Config := resolveConfig 500 50 none none none

/-- The traversal state at the start of a run (source lines 70-74). -/
def emptyState : TraversalState :=
  { processed_content := [], current_size_bytes := 0
    included_count := 0, skipped_count := 0 }

/-- The language tag as the specification words it: the extension with
the leading dot stripped, with `.yml` normalized to the tag `yaml`.
This is the comparison definition for the refinement claim C7; it is
written from the spec, not from the source. -/
def specLanguageTag (file_ext : String) : String :=
  if file_ext = ".yml" then "yaml" else String.mk (file_ext.data.drop 1)

theorem pyLangTag_eq_spec (file_ext : String)
    (h : code_extensions.contains file_ext = true) :
    pyLangTag file_ext = specLanguageTag file_ext := by
  have hm : file_ext ∈ code_extensions := List.mem_of_elem_eq_true h
  fin_cases hm <;> decide

/- ### Claim C1 -/

/-- A repository with two sibling subdirectories: `A` holds a file whose
on-disk size is 2000 bytes (its text decodes to fewer bytes, as
`errors='ignore'` permits), `B` a 10-byte one.  With a 1 KB output budget
and a 2 KB per-file limit, `A/big.md` passes the classifier and the
per-file size check and then trips the budget pre-check
(0 + 2000 > 1024). -/
def c1Repo : FSDir :=
  .mk "r" []
    [ .mk "A" [⟨"big.md", some 2000, some "aaaa"⟩] [],
      .mk "B" [⟨"small.md", some 10, some "0123456789"⟩] [] ]

/-- Claim C1 (code bug): the claim — and the source's own comment at
lines 117-118 ("Set a flag to stop further processing in this repo by
clearing dirs to prevent further os.walk iteration") — say that the
moment the budget pre-check trips, no further files or directories
anywhere in the repository are visited.  The code only clears the current
directory's subdirectory list, so `os.walk` still yields pending sibling
directories.  On `c1Repo` with a 1 KB budget the pre-check trips on
`A/big.md` (counted skipped, `skipped_count = 1`), yet the sibling
directory `B` is subsequently visited and `B/small.md` is rendered into
the output (`included_count = 1`).  The last conjunct shows `A/big.md`
is includable under a 3 KB budget, so in the 1 KB run its skip can only
be the tripped pre-check. -/
theorem c1_sibling_directory_visited_after_precheck_trip :
    (generate_repo_knowledge_file c1Repo "out" 1 2 none none none).state.skipped_count = 1
    ∧ (generate_repo_knowledge_file c1Repo "out" 1 2 none none none).state.included_count = 1
    ∧ (generate_repo_knowledge_file c1Repo "out" 1 2 none none none).state.processed_content
        = ["## File: B/small.md\n\n0123456789\n\n"]
    ∧ (generate_repo_knowledge_file c1Repo "out" 3 2 none none none).state.included_count = 2 := by
  refine ⟨rfl, rfl, rfl, rfl⟩

/- ### Claim C3 -/

/-- A one-file repository: the run appends one block (`included_count =
1`, `skipped_count = 0`). -/
def c3Repo : FSDir := .mk "r" [⟨"a.py", some 10, some "print(100)"⟩] []

/-- Claim C3 counterexample: the aggregation routine does not return the
pair of counts — its body has no `return` statement, so the caller
receives `None` even though the run computed `included_count = 1` and
`skipped_count = 0`. -/
theorem c3_no_pair_returned :
    (generate_repo_knowledge_file c3Repo "out" 500 50 none none none).retVal
      ≠ some ((generate_repo_knowledge_file c3Repo "out" 500 50 none none none).state.included_count,
              (generate_repo_knowledge_file c3Repo "out" 500 50 none none none).state.skipped_count) := by
  decide

/-- Claim C3 (amended): the aggregation routine returns `None` to its
caller (the counts are only printed, lines 185 and 192 of the source);
internally it does maintain the included count correctly — after every
run `included_count` equals the number of rendered blocks appended to
the output. -/
theorem c3_returns_none_and_included_count_correct
    (repo : FSDir) (output_dir : String) (max_output_size_kb max_file_size_kb : Nat)
    (include_extensions exclude_dirs exclude_files : Option (List String)) :
    (generate_repo_knowledge_file repo output_dir max_output_size_kb max_file_size_kb
        include_extensions exclude_dirs exclude_files).retVal = none
    ∧ (generate_repo_knowledge_file repo output_dir max_output_size_kb max_file_size_kb
        include_extensions exclude_dirs exclude_files).state.included_count
      = (generate_repo_knowledge_file repo output_dir max_output_size_kb max_file_size_kb
          include_extensions exclude_dirs exclude_files).state.processed_content.length := by
  constructor
  · rfl
  · have h : (walkDir (resolveConfig max_output_size_kb max_file_size_kb
        include_extensions exclude_dirs exclude_files) "" repo emptyState).1.included_count
        = (walkDir (resolveConfig max_output_size_kb max_file_size_kb
            include_extensions exclude_dirs exclude_files) "" repo emptyState).1.processed_content.length := by
      refine walkDir_inv _
        (fun st => st.included_count = st.processed_content.length) "" repo emptyState
        (fun q _ s hs => processFile_count_step _ q.1 q.2 s hs) rfl
    exact h

/- ### Claim C4 -/

/-- A repository whose root directory is itself named `build`, a member
of the default excluded-directory set. -/
def c4Repo : FSDir := .mk "build" [⟨"a.md", some 2, some "hi"⟩] []

/-- Claim C4 counterexample: the claim quantifies over every directory
whose base name is in the excluded set, but the repository root's own
name is never checked (`os.walk(repo_path)` always enters the top
directory; only entries of `dirs` are filtered at line 82).  A repository
rooted at a directory named `build` is fully processed and its file's
content reaches the output. -/
theorem c4_root_named_in_excluded_set_is_processed :
    default_exclude_dirs.contains "build" = true
    ∧ (generate_repo_knowledge_file c4Repo "out" 1 1 none none none).state.included_count = 1
    ∧ (generate_repo_knowledge_file c4Repo "out" 1 1 none none none).state.processed_content
        = ["## File: a.md\n\nhi\n\n"] := by
  refine ⟨rfl, rfl, rfl⟩

/-- Claim C4 (amended): for every directory strictly below the repository
root whose base name is in the excluded-directory set, the directory is
never entered and no file in it or in any of its descendants contributes
anything to the run — the run's entire result is unchanged when every
such subtree is removed from the tree beforehand.  The repository root
itself is exempt: its name is never tested. -/
theorem c4_excluded_subdirectories_contribute_nothing
    (repo : FSDir) (output_dir : String) (max_output_size_kb max_file_size_kb : Nat)
    (include_extensions exclude_dirs exclude_files : Option (List String)) :
    generate_repo_knowledge_file repo output_dir max_output_size_kb max_file_size_kb
        include_extensions exclude_dirs exclude_files
      = generate_repo_knowledge_file
          (pruneEx (resolveConfig max_output_size_kb max_file_size_kb
              include_extensions exclude_dirs exclude_files).exclude_dirs repo)
          output_dir max_output_size_kb max_file_size_kb
          include_extensions exclude_dirs exclude_files := by
  simp only [generate_repo_knowledge_file]
  rw [walkDir_prune, pruneEx_name]

/- ### Claim C5 -/

/-- Claim C5: a classifier-accepted file whose on-disk size strictly
exceeds `max_file_size_kb * 1024` is skipped without its content ever
being read: the step leaves the accumulated blocks, the running size and
the included count unchanged, increments the skip counter, and its
outcome does not depend on the file's read result at all. -/
theorem c5_oversized_file_skipped_without_read (cfg : Config)
    (relative_path : String) (f : FSFile) (st : TraversalState) (n : Nat)
    (hname : cfg.exclude_files.contains f.name = false)
    (hext : cfg.include_extensions.contains (pyFileExt f.name) = true)
    (hstat : f.statResult = some n)
    (hsize : n > cfg.max_file_size_kb * 1024) :
    processFile cfg relative_path f st
        = .cont { st with skipped_count := st.skipped_count + 1 }
    ∧ ∀ r, processFile cfg relative_path { f with readResult := r } st
        = processFile cfg relative_path f st := by
  have key : ∀ g : FSFile, g.name = f.name → g.statResult = some n →
      processFile cfg relative_path g st
        = .cont { st with skipped_count := st.skipped_count + 1 } := by
    intro g hgname hgstat
    unfold processFile
    rw [hgname, hgstat]
    simp [hname, hext, hsize]
  refine ⟨key f rfl hstat, fun r => ?_⟩
  rw [key f rfl hstat, key { f with readResult := r } rfl hstat]

/-- Witness for C5: with the default configuration, a 51201-byte `.py`
file (one byte over the default 50 KB limit) is skipped and the outcome
ignores its read result. -/
theorem c5_oversized_file_skipped_without_read_witness :
    processFile defaultConfig "big.py" ⟨"big.py", some 51201, some "x"⟩ emptyState
        = .cont { emptyState with skipped_count := 1 }
    ∧ processFile defaultConfig "big.py" ⟨"big.py", some 51201, none⟩ emptyState
        = processFile defaultConfig "big.py" ⟨"big.py", some 51201, some "x"⟩ emptyState := by
  have h := c5_oversized_file_skipped_without_read defaultConfig "big.py"
    ⟨"big.py", some 51201, some "x"⟩ emptyState 51201
    (by decide) (by decide) rfl (by decide)
  exact ⟨h.1, h.2 none⟩

/- ### Claim C6 -/

/-- Claim C6: a stat failure (`os.path.getsize` raising `OSError`) or a
read/processing failure on an individual file increments the skip counter
by one and yields a `cont` outcome — the walk continues with the next
file and the accumulated blocks, running size and included count are
exactly those before the failed file. -/
theorem c6_stat_or_read_failure_skips_file_and_continues (cfg : Config)
    (relative_path : String) (f : FSFile) (st : TraversalState) :
    (f.statResult = none →
      processFile cfg relative_path f st
        = .cont { st with skipped_count := st.skipped_count + 1 })
    ∧ (∀ n, f.statResult = some n →
        cfg.exclude_files.contains f.name = false →
        cfg.include_extensions.contains (pyFileExt f.name) = true →
        ¬ n > cfg.max_file_size_kb * 1024 →
        ¬ st.current_size_bytes + n > cfg.max_output_size_bytes →
        f.readResult = none →
        processFile cfg relative_path f st
          = .cont { st with skipped_count := st.skipped_count + 1 }) := by
  constructor
  · intro h
    unfold processFile
    rw [h]
    split
    · rfl
    · split
      · rfl
      · rfl
  · intro n hstat hname hext hsize hpre hread
    unfold processFile
    rw [hstat, hread]
    simp [hname, hext, hsize, hpre]

/-- Witness for C6: with the default configuration, a file whose stat
fails and a file whose read fails are each counted skipped once, with the
state otherwise untouched. -/
theorem c6_stat_or_read_failure_witness :
    processFile defaultConfig "x.py" ⟨"x.py", none, some "aa"⟩ emptyState
        = .cont { emptyState with skipped_count := 1 }
    ∧ processFile defaultConfig "y.py" ⟨"y.py", some 5, none⟩ emptyState
        = .cont { emptyState with skipped_count := 1 } := by
  constructor
  · exact (c6_stat_or_read_failure_skips_file_and_continues defaultConfig "x.py"
      ⟨"x.py", none, some "aa"⟩ emptyState).1 rfl
  · exact (c6_stat_or_read_failure_skips_file_and_continues defaultConfig "y.py"
      ⟨"y.py", some 5, none⟩ emptyState).2 5 rfl (by decide) (by decide)
      (by decide) (by decide) rfl

/- ### Claim C2 -/

/-- A one-file repository at the budget boundary: `a.md` is exactly 1024
bytes on disk and decodes to 1024 bytes of text.  With a 1 KB budget the
pre-check passes (0 + 1024 ≤ 1024), the file is appended, and the
post-check halts the run with a 1041-byte body. -/
def c2Repo : FSDir :=
  .mk "r" [⟨"a.md", some 1024, some (String.mk (List.replicate 1024 'a'))⟩] []

/-- Claim C2 counterexample: the claim bounds the byte length of the
final written output document by `max_output_size_kb * 1024` plus the
rendering overhead of the one file that triggered the post-check halt,
and says no other content beyond that bound is written.  On `c2Repo` with
a 1 KB budget that bound is `1024 + 17` (the `.md` block's overhead is
its 15-byte `## File:` header plus the trailing blank line; no fencing),
and the accumulated body meets it exactly — but the document the writer
persists additionally contains the synthesized repository header block
(source lines 165-178), so its byte length exceeds the claimed bound. -/
theorem c2_written_document_exceeds_claimed_bound :
    blockOverhead "a.md" ".md" = 17
    ∧ (String.join (generate_repo_knowledge_file c2Repo "out" 1 1 none none
        none).state.processed_content).utf8ByteSize = 1 * 1024 + 17
    ∧ ((generate_repo_knowledge_file c2Repo "out" 1 1 none none
        none).written_content.getD "").utf8ByteSize > 1 * 1024 + 17 := by
  refine ⟨by decide, by decide, by decide⟩

/-- Claim C2 (amended): under the filesystem consistency hypothesis that
each file's decoded text re-encodes to at most its on-disk byte count
(always true of `open(..., errors='ignore')` plus `os.path.getsize`),
the byte length of the written output document is at most
`max_output_size_kb * 1024`, plus the rendering overhead of a single
file (bounded by the largest header-plus-fencing overhead over the
repository's files), plus the byte length of the synthesized repository
header block that the writer prepends. -/
theorem c2_output_document_size_bound
    (repo : FSDir) (output_dir : String)
    (max_output_size_kb max_file_size_kb : Nat)
    (include_extensions exclude_dirs exclude_files : Option (List String))
    (hsz : ∀ q ∈ allFileMeta "" repo, ∀ n c,
      q.2.statResult = some n → q.2.readResult = some c → c.utf8ByteSize ≤ n) :
    ((generate_repo_knowledge_file repo output_dir max_output_size_kb max_file_size_kb
        include_extensions exclude_dirs exclude_files).written_content.getD "").utf8ByteSize
      ≤ max_output_size_kb * 1024 + treeOverheadBound repo
        + (mkRepoHeader repo.name
            (generate_repo_knowledge_file repo output_dir max_output_size_kb
              max_file_size_kb include_extensions exclude_dirs
              exclude_files).state.included_count
            (generate_repo_knowledge_file repo output_dir max_output_size_kb
              max_file_size_kb include_extensions exclude_dirs
              exclude_files).state.current_size_bytes).utf8ByteSize := by
  have hinv : SizeInv
      (resolveConfig max_output_size_kb max_file_size_kb include_extensions
        exclude_dirs exclude_files)
      (treeOverheadBound repo)
      (walkDir (resolveConfig max_output_size_kb max_file_size_kb include_extensions
        exclude_dirs exclude_files) "" repo emptyState).1 := by
    refine walkDir_inv _ _ "" repo emptyState (fun q hq s hs => ?_) ⟨rfl, Nat.zero_le _⟩
    refine processFile_size_step _ _ q.1 q.2 s ?_ (hsz q hq) hs
    exact le_foldr_max (List.mem_map_of_mem _ hq)
  have hst : (generate_repo_knowledge_file repo output_dir max_output_size_kb
      max_file_size_kb include_extensions exclude_dirs exclude_files).state
      = (walkDir (resolveConfig max_output_size_kb max_file_size_kb include_extensions
          exclude_dirs exclude_files) "" repo emptyState).1 := rfl
  have hwc : (generate_repo_knowledge_file repo output_dir max_output_size_kb
      max_file_size_kb include_extensions exclude_dirs exclude_files).written_content
      = (if (walkDir (resolveConfig max_output_size_kb max_file_size_kb include_extensions
            exclude_dirs exclude_files) "" repo emptyState).1.processed_content.isEmpty
         then none
         else some (mkRepoHeader repo.name
            (walkDir (resolveConfig max_output_size_kb max_file_size_kb include_extensions
              exclude_dirs exclude_files) "" repo emptyState).1.included_count
            (walkDir (resolveConfig max_output_size_kb max_file_size_kb include_extensions
              exclude_dirs exclude_files) "" repo emptyState).1.current_size_bytes
            ++ String.join (walkDir (resolveConfig max_output_size_kb max_file_size_kb
              include_extensions exclude_dirs exclude_files) ""
              repo emptyState).1.processed_content)) := rfl
  rw [hst, hwc]
  split
  · exact Nat.zero_le _
  · rw [Option.getD_some, utf8_append]
    have h1 := hinv.1
    have h2 := hinv.2
    have hmax : (resolveConfig max_output_size_kb max_file_size_kb include_extensions
        exclude_dirs exclude_files).max_output_size_bytes
        = max_output_size_kb * 1024 := rfl
    omega

/-- A tiny repository used to witness the size bound: one 2-byte file. -/
def c2SmallRepo : FSDir := .mk "r" [⟨"a.md", some 2, some "hi"⟩] []

/-- Witness for the amended C2 on `c2SmallRepo` with a 1 KB budget. -/
theorem c2_output_document_size_bound_witness :
    ((generate_repo_knowledge_file c2SmallRepo "out" 1 1 none none
        none).written_content.getD "").utf8ByteSize
      ≤ 1 * 1024 + treeOverheadBound c2SmallRepo
        + (mkRepoHeader c2SmallRepo.name
            (generate_repo_knowledge_file c2SmallRepo "out" 1 1 none none
              none).state.included_count
            (generate_repo_knowledge_file c2SmallRepo "out" 1 1 none none
              none).state.current_size_bytes).utf8ByteSize := by
  refine c2_output_document_size_bound c2SmallRepo "out" 1 1 none none none ?_
  intro q hq n c h1 h2
  have hlist : allFileMeta "" c2SmallRepo = [("a.md", ⟨"a.md", some 2, some "hi"⟩)] := by
    decide
  rw [hlist, List.mem_singleton] at hq
  subst hq
  injection h1 with hn
  injection h2 with hc
  subst hn
  subst hc
  decide

/- ### Claim C7 -/

/-- Claim C7: every rendered block begins with the header line
`## File: {relative_path}` followed by a blank line; when the (already
lower-cased) extension is in the fixed `code_extensions` subset the
content is wrapped in a fenced code block whose language tag is the
extension with its leading dot stripped and with `.yml` normalized to
`yaml` (`specLanguageTag`, written from the spec's words); for every
other extension the content follows the header verbatim, unfenced. -/
theorem c7_rendered_block_format (relative_path file_ext content : String) :
    (∃ rest, render relative_path file_ext content
        = "## File: " ++ relative_path ++ "\n\n" ++ rest)
    ∧ (code_extensions.contains file_ext = true →
        render relative_path file_ext content
          = ("## File: " ++ relative_path ++ "\n\n") ++ "```"
            ++ specLanguageTag file_ext ++ "\n" ++ content ++ "\n```\n\n")
    ∧ (code_extensions.contains file_ext = false →
        render relative_path file_ext content
          = ("## File: " ++ relative_path ++ "\n\n") ++ content ++ "\n\n") := by
  refine ⟨?_, fun h => ?_, fun h => ?_⟩
  · unfold render
    split
    · exact ⟨"```" ++ pyLangTag file_ext ++ "\n" ++ content ++ "\n```\n\n",
        by simp only [String.append_assoc]⟩
    · exact ⟨content ++ "\n\n", by simp only [String.append_assoc]⟩
  · rw [← pyLangTag_eq_spec file_ext h]
    unfold render
    rw [h]
    simp
  · unfold render
    rw [h]
    simp

/-- Witness for C7: a fenced `.yml` block (tag normalized to `yaml`) and
an unfenced `.md` block. -/
theorem c7_rendered_block_format_witness :
    render "ci/app.yml" ".yml" "a: 1"
      = ("## File: " ++ "ci/app.yml" ++ "\n\n") ++ "```"
        ++ specLanguageTag ".yml" ++ "\n" ++ "a: 1" ++ "\n```\n\n"
    ∧ render "README.md" ".md" "hello"
      = ("## File: " ++ "README.md" ++ "\n\n") ++ "hello" ++ "\n\n" := by
  constructor
  · exact (c7_rendered_block_format "ci/app.yml" ".yml" "a: 1").2.1 (by decide)
  · exact (c7_rendered_block_format "README.md" ".md" "hello").2.2 (by decide)

/- ### Claim C8 -/

/-- A repository with one subdirectory named `build` holding a markdown
file. -/
def c8DirRepo : FSDir := .mk "r" [] [.mk "build" [⟨"a.md", some 2, some "hi"⟩] []]

/-- A repository with one file named `A.md` at the root. -/
def c8FileRepo : FSDir := .mk "r" [⟨"A.md", some 2, some "hi"⟩] []

/-- Claim C8: the classifier's extension test is case-insensitive — the
extension is lower-cased before it is matched, so any two file names
whose extensions agree up to letter case receive the same verdict from
the allow-list membership test — while exclusion by directory name and by
file name is exact, case-sensitive string matching: a directory named
`build` is pruned exactly when the excluded set spells `build` in the
same case, and likewise for an excluded file name. -/
theorem c8_extension_case_insensitive_name_exclusion_case_sensitive :
    (∀ (exts : List String) (n1 n2 : String),
        pyLower (splitext n1).2 = pyLower (splitext n2).2 →
        exts.contains (pyFileExt n1) = exts.contains (pyFileExt n2))
    ∧ (generate_repo_knowledge_file c8DirRepo "out" 1 1 none (some ["Build"])
        none).state.included_count = 1
    ∧ (generate_repo_knowledge_file c8DirRepo "out" 1 1 none (some ["build"])
        none).state.included_count = 0
    ∧ (generate_repo_knowledge_file c8FileRepo "out" 1 1 none none
        (some ["A.md"])).state.included_count = 0
    ∧ (generate_repo_knowledge_file c8FileRepo "out" 1 1 none none
        (some ["a.md"])).state.included_count = 1 := by
  refine ⟨fun exts n1 n2 h => ?_, rfl, rfl, rfl, rfl⟩
  simp only [pyFileExt, h]

/-- Witness for C8's universally quantified conjunct: `x.PY` and `x.py`
get the same verdict from the extension allow-list test. -/
theorem c8_extension_case_insensitive_witness :
    [".py"].contains (pyFileExt "x.PY") = [".py"].contains (pyFileExt "x.py") :=
  c8_extension_case_insensitive_name_exclusion_case_sensitive.1
    [".py"] "x.PY" "x.py" (by decide)

/- ### Claim C9 -/

/-- Claim C9: a file whose base name yields no extension (`splitext`
returns the empty string, as for `Dockerfile`, `Makefile`, `LICENSE`,
`README`) is always excluded when every entry of the allow-list is
non-empty (true of the default list and any caller list without empty
entries): the empty extension is never a member of the list, so the file
is skipped and contributes nothing to the output. -/
theorem c9_extensionless_file_always_excluded (cfg : Config)
    (relative_path : String) (f : FSFile) (st : TraversalState)
    (hne : ∀ e ∈ cfg.include_extensions, e ≠ "")
    (hext : (splitext f.name).2 = "") :
    cfg.include_extensions.contains (pyFileExt f.name) = false
    ∧ processFile cfg relative_path f st
        = .cont { st with skipped_count := st.skipped_count + 1 } := by
  have hpy : pyFileExt f.name = "" := by rw [pyFileExt, hext]; rfl
  have hcon : cfg.include_extensions.contains (pyFileExt f.name) = false := by
    rw [hpy]
    exact contains_empty_eq_false _ hne
  refine ⟨hcon, ?_⟩
  unfold processFile
  split
  · rfl
  · rw [hcon]
    rfl

/-- Witness for C9: `Dockerfile` has no extension under `splitext` and is
skipped by a default-configuration step. -/
theorem c9_extensionless_file_always_excluded_witness :
    (splitext "Dockerfile").2 = ""
    ∧ defaultConfig.include_extensions.contains (pyFileExt "Dockerfile") = false
    ∧ processFile defaultConfig "Dockerfile" ⟨"Dockerfile", some 5, some "FROM x"⟩ emptyState
        = .cont { emptyState with skipped_count := 1 } := by
  have h := c9_extensionless_file_always_excluded defaultConfig "Dockerfile"
    ⟨"Dockerfile", some 5, some "FROM x"⟩ emptyState (by decide) (by decide)
  exact ⟨by decide, h.1, h.2⟩

/- ### Claim C10 -/

/-- Claim C10: a run never mutates caller-supplied policy lists — after
the run each of the three lists is element-for-element the list that was
passed in.  The source reads them only through `in` membership tests
(lines 82, 90, 95); the one in-place list assignment, `dirs[:] = ...`
(lines 82, 119, 151), targets the traversal's own subdirectory list. -/
theorem c10_policy_lists_unchanged
    (repo : FSDir) (output_dir : String) (max_output_size_kb max_file_size_kb : Nat)
    (exts dirs files : List String) :
    (generate_repo_knowledge_file repo output_dir max_output_size_kb max_file_size_kb
        (some exts) (some dirs) (some files)).final_include_extensions = exts
    ∧ (generate_repo_knowledge_file repo output_dir max_output_size_kb max_file_size_kb
        (some exts) (some dirs) (some files)).final_exclude_dirs = dirs
    ∧ (generate_repo_knowledge_file repo output_dir max_output_size_kb max_file_size_kb
        (some exts) (some dirs) (some files)).final_exclude_files = files :=
  ⟨rfl, rfl, rfl⟩

end KnowledgeBuilder
